import Mathlib

/-!
Verification development for the bltc job-resolution and dispatch core
(src/src/bltc_app.cpp, src/include/bltc_app.hpp).

Modelling conventions:
  - Filesystem paths are modelled as strings in POSIX form; a path is
    absolute iff it starts with a slash.
  - The I8 run status is modelled as a Nat; every status code the program
    assigns lies in 0..6, so signedness and overflow never matter.
  - Exceptions are modelled by an explicit error component threaded through
    results: each translated function returns the status, the (possibly
    mutated) job, the instrumentation trace, and an optional escaping
    exception kind.
  - External collaborators (be/util file helpers, the BLT compiler, the
    C++ standard library streams) are oracles packaged in an Env record;
    their observable outcomes (read success or failure, open outcome,
    compile outcome, stdin capture) are free parameters.
-/

namespace Bltc

/-! ## Path model -/

/-- A path is absolute iff it begins with a slash (POSIX model of
std::filesystem::path::is_absolute). -/
def isAbsolute (p : String) : Bool :=
  match p.data with
  | '/' :: _ => true
  | _ => false

/-- Models std::filesystem::path::operator/= as used by the program:
if the right operand is absolute it replaces the left; otherwise it is
appended with a separator inserted when needed. -/
def pathAppend (a b : String) : String :=
  if isAbsolute b then b
  else if a.data = [] then b
  else if a.data.getLast? = some '/' then a ++ b
  else String.mk (a.data ++ '/' :: b.data)

/-- Splits a character list at the last occurrence of a separator,
returning the part before and the part after it. -/
def splitAtLast (c : Char) : List Char → Option (List Char × List Char)
  | [] => none
  | x :: xs =>
    match splitAtLast c xs with
    | some (a, b) => some (x :: a, b)
    | none => if x = c then some ([], xs) else none

/-- Models std::filesystem::path::replace_extension: the extension of the
filename (the last dot-suffix, except for dot-files, the name dot and the
name dot-dot, which have no extension) is removed and a dot plus the new
extension is appended. -/
def replace_extension (p : String) (ext : String) : String :=
  let cs := p.data
  let dirfile : List Char × List Char :=
    match splitAtLast '/' cs with
    | some (a, b) => (a ++ ['/'], b)
    | none => ([], cs)
  let file := dirfile.2
  let stem : List Char :=
    if file = ['.'] ∨ file = ['.', '.'] then file
    else
      match splitAtLast '.' file with
      | some (a, _) => if a = [] then file else a
      | none => file
  String.mk (dirfile.1 ++ stem ++ '.' :: ext.data)

/-- Target output extension used at src/src/bltc_app.cpp line 397. -/
def luaExt : String :=
  String.mk ['l', 'u', 'a']

/-- Models util::parse_path, which converts a command-line string into a
filesystem path; since paths are modelled as strings this is the
identity. -/
def parse_path (s : String) : String := s

/-! ## Filesystem and collaborator oracles -/

/-- Kind of an existing filesystem entry. -/
inductive FKind
  | file
  | dir
  | misc
deriving DecidableEq

/-- A filesystem snapshot: for each path, the kind of the entry there, or
none when nothing exists at that path. -/
structure FS where
  kind : String → Option FKind

/-- Models std::filesystem::exists. -/
def FS.exists_ (fs : FS) (p : String) : Bool :=
  (fs.kind p).isSome

/-- Models std::filesystem::is_directory. -/
def FS.is_directory (fs : FS) (p : String) : Bool :=
  match fs.kind p with
  | some FKind.dir => true
  | _ => false

/-- Kind of a C++ exception as discriminated by the catch clauses of the
program: fs::filesystem_error, be::Fatal, or any other std::exception. -/
inductive ExcKind
  | fsError
  | fatal
  | other
deriving DecidableEq

/-- Outcome of std::ofstream::open: the stream is good, the stream failed
by setting failbit (open does not throw by default), or an exception was
thrown before the stream was assigned. -/
inductive OpenRes
  | ok
  | fail
  | exc (k : ExcKind)
deriving DecidableEq

/-- Outcome of invoking the BLT compiler (blt::compile_blt or
blt::debug_blt): success, a RecoverableException (caught by the program),
or some other exception that escapes process_raw_. -/
inductive CompileRes
  | ok
  | recoverable
  | escape (k : ExcKind)
deriving DecidableEq

/-- Oracles for every external collaborator the pipeline consults. -/
structure Env where
  fs : FS
  globRaw : String → String → List String
  globErr : String → List String → Option ExcKind
  readFile : String → Except ExcKind String
  openRes : String → OpenRes
  stdin : Except ExcKind String
  compile : Bool → String → CompileRes
  absolute : String → String
  createDirs : String → Option ExcKind × FS
  cwd : String

/-! ## Spec-modelled glob -/

/-- Removes duplicates from a list keeping first occurrences; seen holds
the elements already emitted. -/
def dedupAux (seen : List String) : List String → List String
  | [] => []
  | x :: xs => if x ∈ seen then dedupAux seen xs else x :: dedupAux (x :: seen) xs

/-- De-duplication preserving first occurrences. -/
def dedup (l : List String) : List String :=
  dedupAux [] l

/-- Modelled from the spec: util::glob with PathMatchType::files_and_misc
(the be/util library; its sources are not part of this repository). Per the
spec's PathResolver contract, the pattern is evaluated against each search
directory in order (globRaw enumerates the per-directory candidates), the
per-directory results are concatenated preserving directory order, matches
are restricted to existing non-directory entries (files and miscellaneous
entries; directories are never valid matches), and the result is
de-duplicated keeping first occurrences. -/
def glob (fs : FS) (raw : String → String → List String) (pattern : String)
    (dirs : List String) : List String :=
  dedup ((dirs.map (fun d =>
    (raw pattern d).filter (fun p => fs.exists_ p && !(fs.is_directory p)))).flatten)

/-! ## Job model (src/include/bltc_app.hpp) -/

/-- Source kind of a job. -/
inductive SourceType
  | path
  | raw
  | console
deriving DecidableEq

/-- Destination kind of a job. -/
inductive DestType
  | path
  | console
deriving DecidableEq

/-- The Job record of BltcApp. -/
structure Job where
  source : String
  dest : String
  source_type : SourceType
  dest_type : DestType
deriving DecidableEq

/-! ## Instrumentation events -/

/-- Observable events of a run: a work item reaching execution with its
planned destination, a status raise via max, a direct status assignment in
a catch handler of process_, an invocation of the BLT transform, and an
exception escaping a job's body to the catch clauses of process_. -/
inductive Event
  | workItem (src : Option String) (destType : DestType) (dest : String)
  | raise (c : Nat)
  | setStatus (c : Nat)
  | transform (data : String)
  | escape (k : ExcKind)
deriving DecidableEq

/-- Result of process_raw_: final status, trace, escaping exception. -/
structure RRes where
  status : Nat
  events : List Event
  exc : Option ExcKind
deriving DecidableEq

/-- Result of process_path_ and process_non_path_: final status, the job
as mutated through its reference, trace, escaping exception. -/
structure PRes where
  status : Nat
  job : Job
  events : List Event
  exc : Option ExcKind
deriving DecidableEq

/-- Result of the fan-out loop over glob matches. -/
structure MRes where
  status : Nat
  events : List Event
  exc : Option ExcKind
deriving DecidableEq

/-- Result of process_ (every exception is caught there). -/
structure JRes where
  status : Nat
  job : Job
  events : List Event
deriving DecidableEq

/-- Result of a run over the job list: final status, the stored job list
after processing, trace. -/
structure RunRes where
  status : Nat
  jobs : List Job
  events : List Event
deriving DecidableEq

/-- Global configuration fixed before the job loop. -/
structure Cfg where
  debug : Bool
  search_paths : List String
  output_path : String

/-! ## Pipeline, translated from src/src/bltc_app.cpp -/

/-- Destination planning for a path-kind source, lines 387-407: with an
empty destination token the destination is the source path (prefixed by
the output directory when one is set) with its extension replaced by lua;
with a non-empty token, a relative token is joined onto the output
directory when one is set. The planned destination is written back into
the job. -/
def plan_path_dest (output_path : String) (path : String) (job : Job) : Job :=
  match job.dest_type with
  | DestType.path =>
    let dest :=
      if job.dest.isEmpty then
        let d := if output_path.isEmpty then path else pathAppend output_path path
        replace_extension d luaExt
      else
        if !(isAbsolute job.dest) && !(output_path.isEmpty) then
          pathAppend output_path job.dest
        else job.dest
    { job with dest := dest }
  | DestType.console => job

/-- Translation of BltcApp::process_raw_, lines 460-516. For a path
destination the output file is opened: an exception during opening is
caught and raises max(status, 5) leaving the stream pointer null, while an
ordinary open failure merely leaves the stream in a failed state. If the
sink is missing or bad the function returns; otherwise the transform is
invoked, a RecoverableException raises max(status, 6), and any other
exception escapes. -/
def process_raw_ (env : Env) (debug : Bool) (st : Nat) (data : String) (job : Job) : RRes :=
  let sel : Nat × List Event × Bool :=
    match job.dest_type with
    | DestType.path =>
      match env.openRes job.dest with
      | OpenRes.ok => (st, [], true)
      | OpenRes.fail => (st, [], false)
      | OpenRes.exc _ => (max st 5, [Event.raise 5], false)
    | DestType.console => (st, [], true)
  match sel with
  | (st1, ev1, sinkOk) =>
    if sinkOk then
      match env.compile debug data with
      | CompileRes.ok => ⟨st1, ev1 ++ [Event.transform data], none⟩
      | CompileRes.recoverable =>
        ⟨max st1 6, ev1 ++ [Event.transform data, Event.raise 6], none⟩
      | CompileRes.escape k => ⟨st1, ev1 ++ [Event.transform data], some k⟩
    else ⟨st1, ev1, none⟩

/-- Translation of BltcApp::process_path_, lines 384-441: plan the
destination (mutating the job through its reference), then read the source
file; any exception while reading is caught and raises max(status, 4),
aborting the item; on success process_raw_ runs outside the try block, so
its escaping exceptions propagate. -/
def process_path_ (env : Env) (cfg : Cfg) (st : Nat) (path : String) (job : Job) : PRes :=
  let job1 := plan_path_dest cfg.output_path path job
  let ev0 := [Event.workItem (some path) job1.dest_type job1.dest]
  match env.readFile path with
  | Except.error _ => ⟨max st 4, job1, ev0 ++ [Event.raise 4], none⟩
  | Except.ok data =>
    let r := process_raw_ env cfg.debug st data job1
    ⟨r.status, job1, ev0 ++ r.events, r.exc⟩

/-- Destination planning for a non-path source, lines 444-455: a path
destination with an empty token is downgraded to console; a non-empty
relative token is joined onto the output directory when one is set; the
planned destination is written back into the job. -/
def plan_non_path_dest (output_path : String) (job : Job) : Job :=
  match job.dest_type with
  | DestType.path =>
    if job.dest.isEmpty then { job with dest_type := DestType.console }
    else
      let dest :=
        if !(isAbsolute job.dest) && !(output_path.isEmpty) then
          pathAppend output_path job.dest
        else job.dest
      { job with dest := dest }
  | DestType.console => job

/-- Translation of BltcApp::process_non_path_, lines 443-458: plan the
destination (mutating the job through its reference), then run
process_raw_ with no surrounding try block. -/
def process_non_path_ (env : Env) (cfg : Cfg) (st : Nat) (data : String) (job : Job) : PRes :=
  let job1 := plan_non_path_dest cfg.output_path job
  let ev0 := [Event.workItem none job1.dest_type job1.dest]
  let r := process_raw_ env cfg.debug st data job1
  ⟨r.status, job1, ev0 ++ r.events, r.exc⟩

/-- The fan-out loop of lines 331-334: each glob match is processed
against a fresh copy of the job, so the stored job is never mutated; an
exception escaping one match's processing aborts the loop. -/
def runMatches (env : Env) (cfg : Cfg) (job : Job) : Nat → List String → MRes
  | st, [] => ⟨st, [], none⟩
  | st, p :: ps =>
    let r := process_path_ env cfg st p job
    match r.exc with
    | some k => ⟨r.status, r.events, some k⟩
    | none =>
      let rest := runMatches env cfg job r.status ps
      ⟨rest.status, r.events ++ rest.events, rest.exc⟩

/-- The body of BltcApp::process_ before its catch clauses, lines 307-361:
a path source takes the absolute-and-exists fast path, otherwise glob
expansion (which may throw) with either fan-out over matches or the
no-match raise of max(status, 3); a console source uses the cached stdin
capture (whose first read may throw); a raw source passes its text
straight to process_non_path_. -/
def process_body (env : Env) (fs : FS) (cfg : Cfg) (st : Nat) (job : Job) : PRes :=
  match job.source_type with
  | SourceType.path =>
    let source := parse_path job.source
    if isAbsolute source && fs.exists_ source then
      process_path_ env cfg st source job
    else
      match env.globErr job.source cfg.search_paths with
      | some k => ⟨st, job, [], some k⟩
      | none =>
        let paths := glob fs env.globRaw job.source cfg.search_paths
        if paths.isEmpty then
          ⟨max st 3, job, [Event.raise 3], none⟩
        else
          let r := runMatches env cfg job st paths
          ⟨r.status, job, r.events, r.exc⟩
  | SourceType.console =>
    match env.stdin with
    | Except.error k => ⟨st, job, [], some k⟩
    | Except.ok data => process_non_path_ env cfg st data job
  | SourceType.raw => process_non_path_ env cfg st job.source job

/-- Translation of BltcApp::process_, lines 306-382: the catch clauses
assign the status directly, not through max: a filesystem error escaping
the body sets status to 4, and a Fatal or any other exception sets it
to 1. -/
def process_ (env : Env) (fs : FS) (cfg : Cfg) (st : Nat) (job : Job) : JRes :=
  let r := process_body env fs cfg st job
  match r.exc with
  | none => ⟨r.status, r.job, r.events⟩
  | some ExcKind.fsError =>
    ⟨4, r.job, r.events ++ [Event.escape ExcKind.fsError, Event.setStatus 4]⟩
  | some ExcKind.fatal =>
    ⟨1, r.job, r.events ++ [Event.escape ExcKind.fatal, Event.setStatus 1]⟩
  | some ExcKind.other =>
    ⟨1, r.job, r.events ++ [Event.escape ExcKind.other, Event.setStatus 1]⟩

/-- The job loop of lines 285-300: jobs are processed in order through
references into the stored list, so mutations persist; process_ catches
every modelled exception, so the loop always reaches the end of the
list. -/
def runJobs (env : Env) (fs : FS) (cfg : Cfg) : Nat → List Job → RunRes
  | st, [] => ⟨st, [], []⟩
  | st, j :: js =>
    let r := process_ env fs cfg st j
    let rest := runJobs env fs cfg r.status js
    ⟨rest.status, r.job :: rest.jobs, r.events ++ rest.events⟩

/-- App state as established by the constructor, before operator() runs. -/
structure AppCfg where
  status : Nat
  debug : Bool
  search_paths : List String
  output_path : String
  jobs : List Job

/-- Output-directory setup of lines 244-279: the configured path is made
absolute; if nothing exists there the directory is created, any exception
being caught with status 1; then if the path is not a directory the status
becomes 5. On success it returns the absolute output path and the
filesystem as left by the creation. -/
def setupOutput (env : Env) (outp : String) : Except Nat (String × FS) :=
  if outp.isEmpty then Except.ok (outp, env.fs)
  else
    let op := env.absolute outp
    let created : Except Nat FS :=
      if env.fs.exists_ op then Except.ok env.fs
      else
        match env.createDirs op with
        | (some _, _) => Except.error 1
        | (none, fs2) => Except.ok fs2
    match created with
    | Except.error c => Except.error c
    | Except.ok fs2 =>
      if fs2.is_directory op then Except.ok (op, fs2) else Except.error 5

/-- Translation of BltcApp::operator(), lines 228-303: a nonzero status
from the constructor returns immediately; the search-path list defaults to
the working directory; output-directory setup failures return before any
job is processed; otherwise the job loop runs. -/
def appRun (env : Env) (a : AppCfg) : RunRes :=
  if a.status ≠ 0 then ⟨a.status, a.jobs, []⟩
  else
    let sp := if a.search_paths.isEmpty then [env.cwd] else a.search_paths
    match setupOutput env a.output_path with
    | Except.error c => ⟨c, a.jobs, []⟩
    | Except.ok (op, fs2) =>
      runJobs env fs2 ⟨a.debug, sp, op⟩ a.status a.jobs

/-- The post-parse fixup of the constructor, lines 178-182: when neither
help nor version was requested and no job was declared, both are turned on
and the status becomes 1. Returns (show_help, show_version, status). -/
def constructor_finalize (show_help show_version : Bool) (jobs : List Job) (st : Nat) :
    Bool × Bool × Nat :=
  if !show_help && !show_version && jobs.isEmpty then (true, true, 1)
  else (show_help, show_version, st)

/-- What the constructor prints, lines 184-198: with show_help set, the
full help screen is described (including the version prologue when
show_version is also set); with only show_version set, just the version
and license sections are described. -/
inductive ConsoleOut
  | helpScreen (withVersion : Bool)
  | versionInfo
deriving DecidableEq

/-- Describe step of the constructor, lines 193-198. -/
def constructor_output (show_help show_version : Bool) : List ConsoleOut :=
  if show_help then [ConsoleOut.helpScreen show_version]
  else if show_version then [ConsoleOut.versionInfo]
  else []

/-! ## Trace projections -/

/-- Severities raised through max-updates in a trace. -/
def raisesOf (tr : List Event) : List Nat :=
  tr.filterMap fun e =>
    match e with
    | Event.raise c => some c
    | _ => none

/-- Work items of a trace: resolved source (none for non-path payloads),
planned destination kind, planned destination token. -/
def itemsOf (tr : List Event) : List (Option String × DestType × String) :=
  tr.filterMap fun e =>
    match e with
    | Event.workItem s t d => some (s, t, d)
    | _ => none

/-- Whether an event is an exception escaping to process_'s catch. -/
def Event.isEscape : Event → Bool
  | Event.escape _ => true
  | _ => false

/-- A trace in which no exception escaped any job's body. -/
def escapeFree (tr : List Event) : Bool :=
  tr.all fun e => !e.isEscape

/-- Whether the transform was invoked anywhere in a trace. -/
def ranTransform (tr : List Event) : Bool :=
  tr.any fun e =>
    match e with
    | Event.transform _ => true
    | _ => false

/-- Left fold of max, the accumulated status of a sequence of raises. -/
def foldMax (st : Nat) (l : List Nat) : Nat :=
  l.foldl max st

/-! ## Concrete fixtures for witnesses and counterexamples -/

/-- The empty string. -/
def emptyStr : String := ""

/-- A working-directory path. -/
def cwdStr : String := "/cw"

/-- An absolute path at which a regular file exists in the fixtures. -/
def srcAbs : String := "/a.blt"

/-- An absolute path at which a directory exists in the fixtures. -/
def dirAbs : String := "/d"

/-- A relative input token, used as a glob pattern. -/
def relPat : String := "pat"

/-- A relative destination token. -/
def outRel : String := "o.lua"

/-- An absolute destination token. -/
def outAbs : String := "/out1"

/-- Raw template text. -/
def tmpl : String := "tpl"

/-- Contents returned by the fixture file reader. -/
def dataStr : String := "data"

/-- A search directory for the glob fixtures. -/
def srchDir : String := "/s"

/-- First glob match in the fixtures. -/
def m1 : String := "/s/x1.blt"

/-- Second glob match in the fixtures. -/
def m2 : String := "/s/x2.blt"

/-- Scenario B input filename. -/
def barBlt : String := "bar.blt"

/-- Scenario B output directory. -/
def outDirS : String := "out"

/-- Scenario B expected destination. -/
def outBarLua : String := "out/bar.lua"

/-- An absolute path at which a non-directory entry exists for the
output-directory fixtures. -/
def ndPath : String := "/nd"

/-- A filesystem with no entries. -/
def fsEmpty : FS := ⟨fun _ => none⟩

/-- A filesystem holding only the regular file srcAbs. -/
def fsA : FS := ⟨fun p => if p = srcAbs then some FKind.file else none⟩

/-- A filesystem holding only the directory dirAbs. -/
def fsD : FS := ⟨fun p => if p = dirAbs then some FKind.dir else none⟩

/-- A filesystem holding the two regular files m1 and m2. -/
def fsM : FS := ⟨fun p => if p = m1 ∨ p = m2 then some FKind.file else none⟩

/-- A filesystem holding a non-directory entry at ndPath. -/
def fsND : FS := ⟨fun p => if p = ndPath then some FKind.file else none⟩

/-- Baseline environment: empty filesystem, empty glob results, no
failures anywhere, identity path absolutization. -/
def envBase : Env where
  fs := fsEmpty
  globRaw := fun _ _ => []
  globErr := fun _ _ => none
  readFile := fun _ => Except.ok dataStr
  openRes := fun _ => OpenRes.ok
  stdin := Except.ok dataStr
  compile := fun _ _ => CompileRes.ok
  absolute := fun s => s
  createDirs := fun _ => (none, fsEmpty)
  cwd := cwdStr

/-- Environment in which the transform always reports a recoverable error
and glob enumeration always throws a filesystem error. -/
def envC1 : Env :=
  { envBase with
    globErr := fun _ _ => some ExcKind.fsError
    compile := fun _ _ => CompileRes.recoverable }

/-- Environment with the single file srcAbs, reads succeeding. -/
def envC2 : Env :=
  { envBase with fs := fsA }

/-- Environment in which opening any output file fails by setting failbit
without throwing, as std::ofstream::open does. -/
def envC3 : Env :=
  { envBase with openRes := fun _ => OpenRes.fail }

/-- Environment with the directory dirAbs, whose read fails. -/
def envC5 : Env :=
  { envBase with
    fs := fsD
    readFile := fun _ => Except.error ExcKind.fsError }

/-- Environment in which reading standard input throws an ordinary
stream exception. -/
def envC6 : Env :=
  { envBase with stdin := Except.error ExcKind.other }

/-- Environment in which the pattern relPat matches m1 and m2 inside the
search directory srchDir. -/
def envC7 : Env :=
  { envBase with
    fs := fsM
    globRaw := fun _ d => if d = srchDir then [m1, m2] else [] }

/-- Environment whose filesystem has a non-directory entry at the
configured output path. -/
def envC10a : Env :=
  { envBase with fs := fsND }

/-- Environment in which creating the output directory throws. -/
def envC10b : Env :=
  { envBase with createDirs := fun _ => (some ExcKind.fsError, fsEmpty) }

/-- A raw-source job with an absolute explicit destination. -/
def jobRawOut : Job := ⟨tmpl, outAbs, SourceType.raw, DestType.path⟩

/-- A path-source job with a relative pattern and empty destination. -/
def jobPat : Job := ⟨relPat, emptyStr, SourceType.path, DestType.path⟩

/-- A path-source job naming the absolute existing file srcAbs. -/
def jobA : Job := ⟨srcAbs, emptyStr, SourceType.path, DestType.path⟩

/-- A raw-source job with a relative explicit destination. -/
def jobRawRel : Job := ⟨tmpl, outRel, SourceType.raw, DestType.path⟩

/-- A path-source job naming the absolute existing directory dirAbs. -/
def jobD : Job := ⟨dirAbs, emptyStr, SourceType.path, DestType.path⟩

/-- A console-source job writing to standard output. -/
def jobStdin : Job := ⟨emptyStr, emptyStr, SourceType.console, DestType.console⟩

/-- A path-source job with a relative pattern and an explicit relative
destination token. -/
def jobPatOut : Job := ⟨relPat, outRel, SourceType.path, DestType.path⟩

/-- Configuration with the default search path and no output directory. -/
def cfg0 : Cfg := ⟨false, [cwdStr], emptyStr⟩

/-- Configuration searching srchDir with no output directory. -/
def cfgS : Cfg := ⟨false, [srchDir], emptyStr⟩

/-- Configuration with output directory outDirS. -/
def cfgOut : Cfg := ⟨false, [cwdStr], outDirS⟩

/-- App state carrying only a failing parse status. -/
def appC9 : AppCfg := ⟨1, false, [], emptyStr, []⟩

/-- App state configured with the non-directory output path ndPath. -/
def appC10 : AppCfg := ⟨0, false, [], ndPath, [jobA]⟩

/-! ## Helper lemmas about traces and the status fold -/

@[simp]
theorem raisesOf_nil : raisesOf [] = [] := rfl

@[simp]
theorem raisesOf_append (a b : List Event) :
    raisesOf (a ++ b) = raisesOf a ++ raisesOf b := by
  simp [raisesOf]

@[simp]
theorem itemsOf_nil : itemsOf [] = [] := rfl

@[simp]
theorem itemsOf_append (a b : List Event) :
    itemsOf (a ++ b) = itemsOf a ++ itemsOf b := by
  simp [itemsOf]

@[simp]
theorem escapeFree_append (a b : List Event) :
    escapeFree (a ++ b) = (escapeFree a && escapeFree b) := by
  simp [escapeFree]

@[simp]
theorem raisesOf_cons_workItem (s : Option String) (t : DestType) (d : String) (tr : List Event) :
    raisesOf (Event.workItem s t d :: tr) = raisesOf tr := by
  simp [raisesOf]

@[simp]
theorem raisesOf_cons_raise (c : Nat) (tr : List Event) :
    raisesOf (Event.raise c :: tr) = c :: raisesOf tr := by
  simp [raisesOf]

@[simp]
theorem raisesOf_cons_setStatus (c : Nat) (tr : List Event) :
    raisesOf (Event.setStatus c :: tr) = raisesOf tr := by
  simp [raisesOf]

@[simp]
theorem raisesOf_cons_transform (d : String) (tr : List Event) :
    raisesOf (Event.transform d :: tr) = raisesOf tr := by
  simp [raisesOf]

@[simp]
theorem raisesOf_cons_escape (k : ExcKind) (tr : List Event) :
    raisesOf (Event.escape k :: tr) = raisesOf tr := by
  simp [raisesOf]

@[simp]
theorem itemsOf_cons_workItem (s : Option String) (t : DestType) (d : String) (tr : List Event) :
    itemsOf (Event.workItem s t d :: tr) = (s, t, d) :: itemsOf tr := by
  simp [itemsOf]

@[simp]
theorem itemsOf_cons_raise (c : Nat) (tr : List Event) :
    itemsOf (Event.raise c :: tr) = itemsOf tr := by
  simp [itemsOf]

@[simp]
theorem itemsOf_cons_setStatus (c : Nat) (tr : List Event) :
    itemsOf (Event.setStatus c :: tr) = itemsOf tr := by
  simp [itemsOf]

@[simp]
theorem itemsOf_cons_transform (d : String) (tr : List Event) :
    itemsOf (Event.transform d :: tr) = itemsOf tr := by
  simp [itemsOf]

@[simp]
theorem itemsOf_cons_escape (k : ExcKind) (tr : List Event) :
    itemsOf (Event.escape k :: tr) = itemsOf tr := by
  simp [itemsOf]

@[simp]
theorem foldMax_nil (st : Nat) : foldMax st [] = st := rfl

theorem foldMax_cons (st c : Nat) (l : List Nat) :
    foldMax st (c :: l) = foldMax (max st c) l := rfl

theorem foldMax_append (st : Nat) (a b : List Nat) :
    foldMax st (a ++ b) = foldMax (foldMax st a) b := by
  simp [foldMax]

theorem le_foldMax (st : Nat) (l : List Nat) : st ≤ foldMax st l := by
  induction l generalizing st with
  | nil => simp
  | cons c l ih => exact le_trans (Nat.le_max_left st c) (ih (max st c))

/-! ## Structural lemmas about the pipeline -/

theorem process_raw_status (env : Env) (debug : Bool) (st : Nat) (data : String) (job : Job) :
    (process_raw_ env debug st data job).status =
      foldMax st (raisesOf (process_raw_ env debug st data job).events) := by
  unfold process_raw_
  cases hd : job.dest_type
  · cases ho : env.openRes job.dest
    · cases hc : env.compile debug data <;> simp [raisesOf, foldMax]
    · simp [raisesOf, foldMax]
    · simp [raisesOf, foldMax]
  · cases hc : env.compile debug data <;> simp [raisesOf, foldMax]

theorem process_path_status (env : Env) (cfg : Cfg) (st : Nat) (path : String) (job : Job) :
    (process_path_ env cfg st path job).status =
      foldMax st (raisesOf (process_path_ env cfg st path job).events) := by
  unfold process_path_
  cases hr : env.readFile path with
  | error e => simp [raisesOf, foldMax]
  | ok data =>
    have h := process_raw_status env cfg.debug st data (plan_path_dest cfg.output_path path job)
    simpa [raisesOf, foldMax] using h

theorem process_non_path_status (env : Env) (cfg : Cfg) (st : Nat) (data : String) (job : Job) :
    (process_non_path_ env cfg st data job).status =
      foldMax st (raisesOf (process_non_path_ env cfg st data job).events) := by
  unfold process_non_path_
  have h := process_raw_status env cfg.debug st data (plan_non_path_dest cfg.output_path job)
  simpa [raisesOf, foldMax] using h

theorem runMatches_status (env : Env) (cfg : Cfg) (job : Job) :
    ∀ (ps : List String) (st : Nat),
      (runMatches env cfg job st ps).status =
        foldMax st (raisesOf (runMatches env cfg job st ps).events)
  | [], st => by simp [runMatches]
  | p :: ps, st => by
    unfold runMatches
    cases hx : (process_path_ env cfg st p job).exc with
    | some k =>
      simp only [hx]
      simpa using process_path_status env cfg st p job
    | none =>
      simp only [hx]
      have h1 := process_path_status env cfg st p job
      have h2 := runMatches_status env cfg job ps (process_path_ env cfg st p job).status
      simp only [raisesOf_append, foldMax_append]
      rw [← h1]
      exact h2

theorem process_body_status (env : Env) (fs : FS) (cfg : Cfg) (st : Nat) (job : Job) :
    (process_body env fs cfg st job).status =
      foldMax st (raisesOf (process_body env fs cfg st job).events) := by
  unfold process_body
  cases hs : job.source_type
  · by_cases hfp : isAbsolute (parse_path job.source) = true ∧
      fs.exists_ (parse_path job.source) = true
    · simpa [hfp] using process_path_status env cfg st (parse_path job.source) job
    · cases hg : env.globErr job.source cfg.search_paths with
      | some k => simp [hfp, hg, raisesOf]
      | none =>
        cases hglob : glob fs env.globRaw job.source cfg.search_paths with
        | nil => simp [hfp, hg, hglob, raisesOf, foldMax]
        | cons q qs =>
          have h := runMatches_status env cfg job (q :: qs) st
          simpa [hfp, hg, hglob, raisesOf, foldMax] using h
  · simpa using process_non_path_status env cfg st job.source job
  · cases hin : env.stdin with
    | error k => simp [hin, raisesOf]
    | ok data => simpa [hin] using process_non_path_status env cfg st data job

theorem process_status (env : Env) (fs : FS) (cfg : Cfg) (st : Nat) (job : Job)
    (h : escapeFree (process_ env fs cfg st job).events = true) :
    (process_ env fs cfg st job).status =
      foldMax st (raisesOf (process_ env fs cfg st job).events) := by
  unfold process_ at h ⊢
  cases hx : (process_body env fs cfg st job).exc with
  | none =>
    simp only [hx]
    simpa using process_body_status env fs cfg st job
  | some k =>
    cases k <;> simp [hx, escapeFree, Event.isEscape] at h

theorem runJobs_status (env : Env) (fs : FS) (cfg : Cfg) :
    ∀ (js : List Job) (st : Nat),
      escapeFree (runJobs env fs cfg st js).events = true →
      (runJobs env fs cfg st js).status =
        foldMax st (raisesOf (runJobs env fs cfg st js).events)
  | [], st => by simp [runJobs]
  | j :: js, st => by
    intro h
    unfold runJobs at h ⊢
    simp only [escapeFree_append, Bool.and_eq_true] at h
    have h1 := process_status env fs cfg st j h.1
    have h2 := runJobs_status env fs cfg js (process_ env fs cfg st j).status h.2
    simp only [raisesOf_append, foldMax_append]
    rw [← h1]
    exact h2

@[simp]
theorem itemsOf_process_raw (env : Env) (debug : Bool) (st : Nat) (data : String) (job : Job) :
    itemsOf (process_raw_ env debug st data job).events = [] := by
  unfold process_raw_
  cases hd : job.dest_type
  · cases ho : env.openRes job.dest
    · cases hc : env.compile debug data <;> simp [itemsOf]
    · simp [itemsOf]
    · simp [itemsOf]
  · cases hc : env.compile debug data <;> simp [itemsOf]

theorem itemsOf_process_path (env : Env) (cfg : Cfg) (st : Nat) (path : String) (job : Job) :
    itemsOf (process_path_ env cfg st path job).events =
      [(some path, (plan_path_dest cfg.output_path path job).dest_type,
        (plan_path_dest cfg.output_path path job).dest)] := by
  unfold process_path_
  cases hr : env.readFile path with
  | error e => simp
  | ok data => simp

theorem process_raw_exc_none (env : Env) (debug : Bool) (st : Nat) (data : String) (job : Job)
    (h : ∀ (b : Bool) (s : String) (k : ExcKind), env.compile b s ≠ CompileRes.escape k) :
    (process_raw_ env debug st data job).exc = none := by
  unfold process_raw_
  cases hd : job.dest_type
  · cases ho : env.openRes job.dest
    · cases hc : env.compile debug data
      · simp
      · simp
      · exact absurd hc (h debug data _)
    · simp
    · simp
  · cases hc : env.compile debug data
    · simp
    · simp
    · exact absurd hc (h debug data _)

theorem process_path_exc_none (env : Env) (cfg : Cfg) (st : Nat) (path : String) (job : Job)
    (h : ∀ (b : Bool) (s : String) (k : ExcKind), env.compile b s ≠ CompileRes.escape k) :
    (process_path_ env cfg st path job).exc = none := by
  unfold process_path_
  cases hr : env.readFile path with
  | error e => simp
  | ok data =>
    simpa using process_raw_exc_none env cfg.debug st data
      (plan_path_dest cfg.output_path path job) h

theorem runMatches_items (env : Env) (cfg : Cfg) (job : Job)
    (h : ∀ (b : Bool) (s : String) (k : ExcKind), env.compile b s ≠ CompileRes.escape k) :
    ∀ (ps : List String) (st : Nat),
      itemsOf (runMatches env cfg job st ps).events =
        ps.map (fun p => (some p, (plan_path_dest cfg.output_path p job).dest_type,
          (plan_path_dest cfg.output_path p job).dest))
  | [], st => by simp [runMatches]
  | p :: ps, st => by
    unfold runMatches
    have hx := process_path_exc_none env cfg st p job h
    simp only [hx]
    rw [itemsOf_append, itemsOf_process_path env cfg st p job,
      runMatches_items env cfg job h ps (process_path_ env cfg st p job).status]
    simp

theorem mem_of_mem_dedupAux (p : String) :
    ∀ (seen l : List String), p ∈ dedupAux seen l → p ∈ l
  | seen, [], h => by simp [dedupAux] at h
  | seen, x :: xs, h => by
    unfold dedupAux at h
    by_cases hx : x ∈ seen
    · simp [hx] at h
      exact List.mem_cons_of_mem x (mem_of_mem_dedupAux p seen xs h)
    · simp [hx] at h
      rcases h with h | h
      · simp [h]
      · exact List.mem_cons_of_mem x (mem_of_mem_dedupAux p (x :: seen) xs h)

theorem mem_of_mem_dedup (p : String) (l : List String) (h : p ∈ dedup l) : p ∈ l :=
  mem_of_mem_dedupAux p [] l h

theorem process_path_job (env : Env) (cfg : Cfg) (st : Nat) (path : String) (job : Job) :
    (process_path_ env cfg st path job).job = plan_path_dest cfg.output_path path job := by
  unfold process_path_
  cases hr : env.readFile path with
  | error e => simp
  | ok data => simp

theorem process_job (env : Env) (fs : FS) (cfg : Cfg) (st : Nat) (job : Job) :
    (process_ env fs cfg st job).job = (process_body env fs cfg st job).job := by
  unfold process_
  cases hx : (process_body env fs cfg st job).exc with
  | none => simp [hx]
  | some k => cases k <;> simp [hx]

theorem process_items (env : Env) (fs : FS) (cfg : Cfg) (st : Nat) (job : Job) :
    itemsOf (process_ env fs cfg st job).events =
      itemsOf (process_body env fs cfg st job).events := by
  unfold process_
  cases hx : (process_body env fs cfg st job).exc with
  | none => simp [hx]
  | some k => cases k <;> simp [hx]

theorem plan_path_dest_dest_type (output_path : String) (path : String) (job : Job) :
    (plan_path_dest output_path path job).dest_type = job.dest_type := by
  unfold plan_path_dest
  cases hd : job.dest_type <;> simp [hd]


/-! ## Claims -/

/-- Claim C1, counterexample: the claimed monotonicity fails on the code.
In envC1 the first job raises TransformError (6), and the second job's
glob enumeration throws a filesystem error that escapes to the catch
clause of process_, which assigns status 4 directly (line 364), lowering
the status from 6 to 4; the final status 4 is not the maximum severity
raised (6). -/
theorem c1_counterexample :
    (runJobs envC1 fsEmpty cfg0 0 [jobRawOut]).status = 6 ∧
    (runJobs envC1 fsEmpty cfg0 0 [jobRawOut, jobPat]).status = 4 ∧
    raisesOf (runJobs envC1 fsEmpty cfg0 0 [jobRawOut, jobPat]).events = [6] :=
  ⟨by decide, by decide, by decide⟩

/-- Claim C1 (amended): every status update during job processing is of
the form max(status, code) except the catch handlers of process_, which
assign 4 (filesystem error) or 1 (other exception) directly when an
exception escapes a job's body and can thereby lower the status; for
every run in which no exception escapes a job's body, the status is
monotonic non-decreasing and the final status equals the maximum of the
initial status and every severity raised. -/
theorem c1_amended (env : Env) (fs : FS) (cfg : Cfg) (st : Nat) (jobs : List Job)
    (h : escapeFree (runJobs env fs cfg st jobs).events = true) :
    (runJobs env fs cfg st jobs).status =
      foldMax st (raisesOf (runJobs env fs cfg st jobs).events) ∧
    st ≤ (runJobs env fs cfg st jobs).status := by
  have h1 := runJobs_status env fs cfg jobs st h
  exact ⟨h1, h1 ▸ le_foldMax st _⟩

/-- Claim C1 witness: the amended theorem applied to a concrete escape
free run with one read-and-compile job. -/
theorem c1_witness :
    escapeFree (runJobs envC2 fsA cfg0 0 [jobA]).events = true ∧
    ((runJobs envC2 fsA cfg0 0 [jobA]).status =
      foldMax 0 (raisesOf (runJobs envC2 fsA cfg0 0 [jobA]).events) ∧
     0 ≤ (runJobs envC2 fsA cfg0 0 [jobA]).status) :=
  ⟨by decide, c1_amended envC2 fsA cfg0 0 [jobA] (by decide)⟩

/-- Claim C2, counterexample: the stored JobSpec is mutated after
creation. A path job for the absolute existing file srcAbs with an empty
destination token leaves the run with its stored dest overwritten by the
planned destination, because process_path_ receives the stored job by
reference on the fast path and writes the planned destination into it
(line 406). -/
theorem c2_counterexample :
    (runJobs envC2 fsA cfg0 0 [jobA]).jobs ≠ [jobA] ∧
    (runJobs envC2 fsA cfg0 0 [jobA]).jobs =
      [⟨srcAbs, replace_extension srcAbs luaExt, SourceType.path, DestType.path⟩] :=
  ⟨by decide, by decide⟩

/-- Claim C2 (amended): dest and destKind are captured by value at
job-creation time, but the JobSpec is not immutable afterwards:
destination planning writes the planned destination back into the job it
is handed, so an absolute fast-path job's stored spec receives the
planned destination, while glob fan-out plans against per-match copies,
leaving the stored spec of a glob-expanded job unchanged. -/
theorem c2_amended (env : Env) (fs : FS) (cfg : Cfg) (st : Nat) (job : Job)
    (hp : job.source_type = SourceType.path) :
    (¬(isAbsolute (parse_path job.source) = true ∧
        fs.exists_ (parse_path job.source) = true) →
      (process_ env fs cfg st job).job = job) ∧
    (isAbsolute (parse_path job.source) = true →
      fs.exists_ (parse_path job.source) = true →
      (process_ env fs cfg st job).job =
        plan_path_dest cfg.output_path (parse_path job.source) job) := by
  constructor
  · intro hfp
    rw [process_job]
    unfold process_body
    cases hg : env.globErr job.source cfg.search_paths with
    | some k => simp [hp, hfp, hg]
    | none =>
      cases hglob : glob fs env.globRaw job.source cfg.search_paths with
      | nil => simp [hp, hfp, hg, hglob]
      | cons q qs => simp [hp, hfp, hg, hglob]
  · intro ha he
    rw [process_job]
    unfold process_body
    simp [hp, ha, he, process_path_job]

/-- Claim C2 witness: the amended theorem applied to a relative-pattern
job, whose stored spec survives processing unchanged. -/
theorem c2_witness :
    jobPat.source_type = SourceType.path ∧
    (process_ envBase fsEmpty cfg0 0 jobPat).job = jobPat :=
  ⟨by decide, (c2_amended envBase fsEmpty cfg0 0 jobPat (by decide)).1 (by decide)⟩

/-- Claim C3, failing evaluation: a work item planned to the file outRel
whose open fails by setting failbit (the default std::ofstream::open
behavior, which throws nothing) leaves the run status at 0 instead of
raising WriteError (5), because the early return at line 500 follows the
status-preserving non-throwing path; the item is aborted and the
transform is never invoked, but no status is raised. -/
theorem c3_open_failure_run :
    (runJobs envC3 fsEmpty cfg0 0 [jobRawRel]).status = 0 ∧
    ranTransform (runJobs envC3 fsEmpty cfg0 0 [jobRawRel]).events = false ∧
    itemsOf (runJobs envC3 fsEmpty cfg0 0 [jobRawRel]).events =
      [(none, DestType.path, outRel)] :=
  ⟨by decide, by decide, by decide⟩

/-- Claim C4: for a path job whose token, read as a path, is absolute and
exists, processing resolves exactly that single path as the one work
item, for every environment and every configuration (in particular, for
every search-directory list). -/
theorem c4_absolute_fast_path (env : Env) (fs : FS) (cfg : Cfg) (st : Nat) (job : Job)
    (hp : job.source_type = SourceType.path)
    (ha : isAbsolute (parse_path job.source) = true)
    (he : fs.exists_ (parse_path job.source) = true) :
    (itemsOf (process_ env fs cfg st job).events).map Prod.fst =
      [some (parse_path job.source)] := by
  rw [process_items]
  unfold process_body
  simp [hp, ha, he, itemsOf_process_path]

/-- Claim C4 witness: the fast-path theorem applied to the absolute
existing file srcAbs. -/
theorem c4_witness :
    (itemsOf (process_ envC2 fsA cfg0 0 jobA).events).map Prod.fst =
      [some (parse_path jobA.source)] :=
  c4_absolute_fast_path envC2 fsA cfg0 0 jobA (by decide) (by decide) (by decide)

/-- Claim C5, counterexample: the absolute fast path checks existence
only (line 315), so the input token dirAbs, an absolute path naming a
directory, is resolved as a work item even though it is a directory. -/
theorem c5_counterexample :
    fsD.is_directory dirAbs = true ∧
    (itemsOf (runJobs envC5 fsD cfg0 0 [jobD]).events).map Prod.fst = [some dirAbs] :=
  ⟨by decide, by decide⟩

/-- Claim C5 (amended): glob-based resolution never yields a directory —
every path produced by glob expansion is an existing non-directory entry
— but the absolute-path fast path checks only existence, so an absolute
token naming a directory is resolved as a work item (whose read then
fails). -/
theorem c5_amended (fs : FS) (raw : String → String → List String) (pattern : String)
    (dirs : List String) (p : String) (h : p ∈ glob fs raw pattern dirs) :
    fs.is_directory p = false ∧ fs.exists_ p = true := by
  have h1 := mem_of_mem_dedup p _ h
  rw [List.mem_flatten] at h1
  obtain ⟨sub, hsub, hp⟩ := h1
  rw [List.mem_map] at hsub
  obtain ⟨d, hd, rfl⟩ := hsub
  rw [List.mem_filter] at hp
  have h2 := hp.2
  simp only [Bool.and_eq_true, Bool.not_eq_true'] at h2
  exact ⟨h2.2, h2.1⟩

/-- Claim C5 witness: the amended theorem applied to a concrete glob
match. -/
theorem c5_witness :
    m1 ∈ glob fsM envC7.globRaw relPat [srchDir] ∧
    (fsM.is_directory m1 = false ∧ fsM.exists_ m1 = true) :=
  ⟨by decide, c5_amended fsM envC7.globRaw relPat [srchDir] m1 (by decide)⟩

/-- Claim C6, counterexample: the final clause of the claim fails on the
code. The first job matches nothing and raises 3, but the second job's
stdin capture throws, the exception escapes to the catch clause of
process_, and the status is assigned 1 directly (line 377), so the run's
final status is 1, not at least 3. -/
theorem c6_counterexample :
    raisesOf (runJobs envC6 fsEmpty cfg0 0 [jobPat, jobStdin]).events = [3] ∧
    (runJobs envC6 fsEmpty cfg0 0 [jobPat, jobStdin]).status = 1 :=
  ⟨by decide, by decide⟩

/-- Claim C6 (amended): a path job whose pattern matches zero files
raises exactly NoInputMatch via max(status, 3), produces zero work items,
and the remaining jobs still execute; the run's final status is at least
3 provided no exception escapes a later job's body (such an escape is
assigned status 1 or 4 directly and can drop the status below 3). -/
theorem c6_amended (env : Env) (fs : FS) (cfg : Cfg) (st : Nat) (job : Job) (rest : List Job)
    (hp : job.source_type = SourceType.path)
    (hfp : ¬(isAbsolute (parse_path job.source) = true ∧
      fs.exists_ (parse_path job.source) = true))
    (hg : env.globErr job.source cfg.search_paths = none)
    (hglob : glob fs env.globRaw job.source cfg.search_paths = []) :
    process_ env fs cfg st job = ⟨max st 3, job, [Event.raise 3]⟩ ∧
    runJobs env fs cfg st (job :: rest) =
      ⟨(runJobs env fs cfg (max st 3) rest).status,
       job :: (runJobs env fs cfg (max st 3) rest).jobs,
       Event.raise 3 :: (runJobs env fs cfg (max st 3) rest).events⟩ ∧
    (escapeFree (runJobs env fs cfg (max st 3) rest).events = true →
      3 ≤ (runJobs env fs cfg st (job :: rest)).status) := by
  have h1 : process_ env fs cfg st job = ⟨max st 3, job, [Event.raise 3]⟩ := by
    unfold process_ process_body
    simp [hp, hfp, hg, hglob]
  have h2 : runJobs env fs cfg st (job :: rest) =
      ⟨(runJobs env fs cfg (max st 3) rest).status,
       job :: (runJobs env fs cfg (max st 3) rest).jobs,
       Event.raise 3 :: (runJobs env fs cfg (max st 3) rest).events⟩ := by
    simp only [runJobs, h1, List.cons_append, List.nil_append]
  refine ⟨h1, h2, ?_⟩
  intro hef
  have h3 := runJobs_status env fs cfg rest (max st 3) hef
  rw [h2]
  exact le_trans (le_trans (Nat.le_max_right st 3) (le_foldMax (max st 3) _)) (le_of_eq h3.symm)

/-- Claim C6 witness: the amended theorem applied to a concrete
zero-match job with an empty remainder. -/
theorem c6_witness :
    process_ envBase fsEmpty cfg0 0 jobPat = ⟨max 0 3, jobPat, [Event.raise 3]⟩ ∧
    3 ≤ (runJobs envBase fsEmpty cfg0 0 (jobPat :: [])).status := by
  have h := c6_amended envBase fsEmpty cfg0 0 jobPat [] (by decide) (by decide)
    (by decide) (by decide)
  exact ⟨h.1, h.2.2 (by decide)⟩

/-- Claim C7: a path job whose pattern glob-expands to the matches ps
(more than one of them), with a path destination kind and a transform
that never throws escaping exceptions, produces exactly one work item per
match in resolver order, each with its own independently planned
destination; with an empty destination token each match's destination is
its own extension-substituted path, and with a non-empty explicit token
every work item plans the identical destination. -/
theorem c7_fan_out (env : Env) (fs : FS) (cfg : Cfg) (st : Nat) (job : Job)
    (ps : List String)
    (hp : job.source_type = SourceType.path)
    (hfp : ¬(isAbsolute (parse_path job.source) = true ∧
      fs.exists_ (parse_path job.source) = true))
    (hg : env.globErr job.source cfg.search_paths = none)
    (hglob : glob fs env.globRaw job.source cfg.search_paths = ps)
    (hk : 1 < ps.length)
    (hd : job.dest_type = DestType.path)
    (hc : ∀ (b : Bool) (s : String) (k : ExcKind), env.compile b s ≠ CompileRes.escape k) :
    itemsOf (process_ env fs cfg st job).events =
      ps.map (fun p => (some p, DestType.path, (plan_path_dest cfg.output_path p job).dest)) ∧
    (job.dest.isEmpty = true →
      itemsOf (process_ env fs cfg st job).events =
        ps.map (fun p => (some p, DestType.path,
          replace_extension (if cfg.output_path.isEmpty then p else pathAppend cfg.output_path p)
            luaExt))) ∧
    (job.dest.isEmpty = false →
      ∀ it ∈ itemsOf (process_ env fs cfg st job).events,
        it.2.2 = if !(isAbsolute job.dest) && !(cfg.output_path.isEmpty) then
          pathAppend cfg.output_path job.dest else job.dest) := by
  have hne : ps ≠ [] := by
    intro hnil
    rw [hnil] at hk
    simp at hk
  have hie : ps.isEmpty = false := by
    cases ps with
    | nil => exact absurd rfl hne
    | cons q qs => rfl
  have hrm := runMatches_items env cfg job hc ps st
  have hitems : itemsOf (process_ env fs cfg st job).events =
      ps.map (fun p => (some p, (plan_path_dest cfg.output_path p job).dest_type,
        (plan_path_dest cfg.output_path p job).dest)) := by
    rw [process_items]
    unfold process_body
    simp [hp, hfp, hg, hglob, hie, hrm]
  refine ⟨?_, ?_, ?_⟩
  · rw [hitems]
    simp [plan_path_dest_dest_type, hd]
  · intro hde
    rw [hitems]
    simp [plan_path_dest_dest_type, hd, plan_path_dest, hde]
  · intro hde it hit
    rw [hitems] at hit
    rw [List.mem_map] at hit
    obtain ⟨p, hmem, rfl⟩ := hit
    simp [plan_path_dest, hd, hde]

/-- Claim C7 witness: the fan-out theorem applied to a pattern matching
two files. -/
theorem c7_witness :
    itemsOf (process_ envC7 fsM cfgS 0 jobPat).events =
      [m1, m2].map (fun p =>
        (some p, DestType.path, (plan_path_dest cfgS.output_path p jobPat).dest)) :=
  (c7_fan_out envC7 fsM cfgS 0 jobPat [m1, m2] (by decide) (by decide) (by decide)
    (by decide) (by decide) (by decide) (fun b s k h => CompileRes.noConfusion h)).1

/-- Claim C8: for a path-kind work item with a path destination kind and
an empty destination token, the planned destination is the source path
with its extension replaced by lua when no output directory is set, and
the output directory joined with the source path, still with the
extension replaced, when one is set. -/
theorem c8_default_dest (env : Env) (cfg : Cfg) (st : Nat) (p : String) (job : Job)
    (hd : job.dest_type = DestType.path) (hde : job.dest.isEmpty = true) :
    itemsOf (process_path_ env cfg st p job).events =
      [(some p, DestType.path,
        if cfg.output_path.isEmpty then replace_extension p luaExt
        else replace_extension (pathAppend cfg.output_path p) luaExt)] := by
  rw [itemsOf_process_path]
  cases ho : cfg.output_path.isEmpty <;> simp [plan_path_dest, hd, hde, ho]

/-- Claim C8 witness: scenario B — input bar.blt with output directory
out plans destination out/bar.lua. -/
theorem c8_witness :
    itemsOf (process_path_ envBase cfgOut 0 barBlt jobPat).events =
      [(some barBlt, DestType.path,
        if cfgOut.output_path.isEmpty then replace_extension barBlt luaExt
        else replace_extension (pathAppend cfgOut.output_path barBlt) luaExt)] ∧
    replace_extension (pathAppend cfgOut.output_path barBlt) luaExt = outBarLua :=
  ⟨c8_default_dest envBase cfgOut 0 barBlt jobPat (by decide) (by decide), by decide⟩

/-- Claim C9: with neither help nor version requested and an empty job
list, the constructor turns both on and sets status 1, the full help
screen including the version prologue is described, and the run returns
status 1 immediately without processing any job. -/
theorem c9_empty_jobs (env : Env) (a : AppCfg) (ha : a.status = 1) :
    constructor_finalize false false [] 0 = (true, true, 1) ∧
    constructor_output true true = [ConsoleOut.helpScreen true] ∧
    appRun env a = ⟨1, a.jobs, []⟩ := by
  refine ⟨rfl, rfl, ?_⟩
  unfold appRun
  rw [ha]
  simp

/-- Claim C9 witness: the theorem applied to the concrete post-parse
state with status 1 and no jobs. -/
theorem c9_witness :
    appRun envBase appC9 = ⟨1, [], []⟩ :=
  (c9_empty_jobs envBase appC9 rfl).2.2

/-- Claim C10: with a clean status and a configured output path, if the
absolutized output path exists but is not a directory the run returns 5
before processing any job, and if it does not exist and creating it
throws, the run returns 1 before processing any job. -/
theorem c10_output_dir_setup (env : Env) (a : AppCfg)
    (h0 : a.status = 0) (hne : a.output_path.isEmpty = false) :
    (env.fs.exists_ (env.absolute a.output_path) = true →
      env.fs.is_directory (env.absolute a.output_path) = false →
      appRun env a = ⟨5, a.jobs, []⟩) ∧
    (env.fs.exists_ (env.absolute a.output_path) = false →
      (env.createDirs (env.absolute a.output_path)).1.isSome = true →
      appRun env a = ⟨1, a.jobs, []⟩) := by
  constructor
  · intro hex hdir
    unfold appRun setupOutput
    simp [h0, hne, hex, hdir]
  · intro hex hcd
    unfold appRun setupOutput
    cases hc : env.createDirs (env.absolute a.output_path) with
    | mk o f =>
      cases o with
      | none => rw [hc] at hcd; simp at hcd
      | some k => simp [h0, hne, hex, hc]

/-- Claim C10 witness: the theorem applied to the concrete app states
with a non-directory output path and with a throwing directory
creation. -/
theorem c10_witness :
    appRun envC10a appC10 = ⟨5, [jobA], []⟩ ∧
    appRun envC10b appC10 = ⟨1, [jobA], []⟩ :=
  ⟨(c10_output_dir_setup envC10a appC10 rfl (by decide)).1 (by decide) (by decide),
   (c10_output_dir_setup envC10b appC10 rfl (by decide)).2 (by decide) (by decide)⟩

end Bltc
